import Mathlib

/-!
Shallow embedding of `src/mongo/s/catalog/replset/replset_dist_lock_manager.cpp`
(`ReplSetDistLockManager`), together with theorems settling the claims about it.

Modelling conventions:
* The catalog (`DistLockCatalog`) is an external collaborator; its calls are
  modelled as oracles passed in as function arguments: `grab` gives the result
  of the k-th `grabLock` attempt of a `lock` call, `unlockOK` the result of a
  catalog `unlock`, `lookup` the result of `getLockByTS`.
* `OID::gen()` mints globally unique ids; we model it as a counter: the k-th
  attempt of a `lock` call starting at counter `startId` uses id `startId + k`.
* Time is idealized: only `sleepFor` advances the elapsed-time timer (catalog
  calls are instantaneous); `sleepFor d` with `d ≤ 0` advances the clock by 0.
* The acquisition loop may run forever (negative `waitFor`), so it takes fuel
  and returns `none` when the fuel is exhausted without the loop returning.
* `LockOutcome.queued` and `LockOutcome.ids` are observer fields recording the
  session ids pushed onto the pending-unlock queue and the session ids
  generated during the call; they instrument, and do not alter, the control
  flow of the source.
-/

namespace ReplSetDistLock

/-- Error codes used by the manager: the sentinel `LockStateChangeFailed`
(clean rejection of `grabLock`), `LockBusy` (timeout result of `lock`),
`LockNotFound` (`checkStatus` on an invalid lock document), and arbitrary
other catalog errors. -/
inductive ErrorCode
  | lockStateChangeFailed
  | lockBusy
  | lockNotFound
  | other (n : Nat)
deriving DecidableEq, Repr

/-- A `Status`: OK or an error code (messages are irrelevant to the claims). -/
inductive Status
  | ok
  | err (code : ErrorCode)
deriving DecidableEq, Repr

/-- `DistLockHandle` is an alias for the lock session id (`OID`), modelled as
a natural number drawn from the id counter. -/
abbrev DistLockHandle := Nat

/-- Result of one `lock` call: the returned value (`Except.ok handle` on
success, `Except.error status` on failure), the session ids enqueued onto the
pending-unlock queue during the call, the session ids generated (one per
`grabLock` attempt, in order), and the final elapsed time of the timer. -/
structure LockOutcome where
  result : Except Status DistLockHandle
  queued : List DistLockHandle
  ids : List DistLockHandle
  elapsed : Int
deriving Repr

/-- `timeRemaining`/sleep computation of `lock` (source lines 167-169):
the sleep duration is `min(lockTryInterval, max(0, waitFor - elapsed))`. -/
def sleepAmount (waitFor lockTryInterval elapsed : Int) : Int :=
  min lockTryInterval (max 0 (waitFor - elapsed))

/-- The acquisition loop of `ReplSetDistLockManager::lock` (source lines
128-172). State: remaining fuel, elapsed timer value, ids queued for unlock
so far, session ids generated so far (`grab` is indexed by the attempt
number `ids.length`). Returns `none` iff the fuel runs out before the loop
returns. `sleepFor d` advances the clock by `max 0 d`. -/
def lockLoop (grab : Nat → Status) (waitFor lockTryInterval : Int) (startId : Nat) :
    Nat → Int → List DistLockHandle → List DistLockHandle → Option LockOutcome
  | 0, _, _, _ => none
  | fuel + 1, elapsed, queued, ids =>
    if waitFor ≤ 0 ∨ elapsed < waitFor then
      let id := startId + ids.length
      match grab ids.length with
      | Status.ok =>
        -- lock acquired: return ScopedDistLock(lockSessionID, this)
        some ⟨Except.ok id, queued, ids ++ [id], elapsed⟩
      | Status.err c =>
        if c ≠ ErrorCode.lockStateChangeFailed then
          -- ambiguous failure: queueUnlock(lockSessionID); return status
          some ⟨Except.error (Status.err c), queued ++ [id], ids ++ [id], elapsed⟩
        else if waitFor = 0 then
          -- break out of the loop; falls through to the LockBusy return
          some ⟨Except.error (Status.err ErrorCode.lockBusy), queued, ids ++ [id], elapsed⟩
        else
          lockLoop grab waitFor lockTryInterval startId fuel
            (elapsed + max 0 (sleepAmount waitFor lockTryInterval elapsed))
            queued (ids ++ [id])
    else
      some ⟨Except.error (Status.err ErrorCode.lockBusy), queued, ids, elapsed⟩

/-- `ReplSetDistLockManager::lock` (source lines 120-173): runs the
acquisition loop from a fresh timer (`elapsed = 0`) and empty observer
state. -/
def lock (grab : Nat → Status) (waitFor lockTryInterval : Int) (startId : Nat)
    (fuel : Nat) : Option LockOutcome :=
  lockLoop grab waitFor lockTryInterval startId fuel 0 [] []

/-- State of one manager instance: the shutdown flag, whether the background
thread handle `_execThread` is set (by `startUp`), and the pending-unlock
queue `_unlockList`. -/
structure ManagerState where
  isShutDown : Bool
  hasExecThread : Bool
  unlockList : List DistLockHandle
deriving DecidableEq, Repr

/-- Modelled from the spec: the class's member initializers (in the header,
which is not part of the sources) start the shutdown flag false, the thread
handle null and the queue empty; spec §3 says the shutdown flag is
"set once, never cleared" and lifecycle starts before `startUp`. -/
def initialState : ManagerState := ⟨false, false, []⟩

/-- `ReplSetDistLockManager::queueUnlock` (source lines 198-201): append the
session id to the live pending-unlock queue (`push_back`). -/
def queueUnlock (s : ManagerState) (id : DistLockHandle) : ManagerState :=
  { s with unlockList := s.unlockList ++ [id] }

/-- `ReplSetDistLockManager::unlock` (source lines 175-181): call the catalog
unlock (result modelled by the oracle `unlockOK`); on failure, enqueue the
handle. The C++ function returns `void`: the new state is the entire result,
no status is reported to the caller. -/
def unlock (unlockOK : Bool) (s : ManagerState) (id : DistLockHandle) : ManagerState :=
  if unlockOK then s else queueUnlock s id

/-- The lock document (`LocksType`): only its validity matters to this
component; `isValid` is delegated to the record. -/
structure LocksType where
  valid : Bool
deriving DecidableEq, Repr

/-- Validity check of a lock document (delegated collaborator concern). -/
def LocksType.isValid (d : LocksType) : Bool := d.valid

/-- `ReplSetDistLockManager::checkStatus` (source lines 183-196): `lookup`
is the result of `_catalog->getLockByTS(lockHandle)`. A lookup failure is
returned as-is; an invalid document yields `LockNotFound`; otherwise OK. -/
def checkStatus (lookup : Except ErrorCode LocksType) : Status :=
  match lookup with
  | Except.error c => Status.err c
  | Except.ok doc => if doc.isValid then Status.ok else Status.err ErrorCode.lockNotFound

/-- The per-id body of the drain loop of `ReplSetDistLockManager::doTask`
(source lines 101-113), processing the swapped-out batch `toUnlockBatch`.
`unlockOK id` is the result of `_catalog->unlock(id)`; `shutdownAt k` is the
value the k-th `isShutDown()` check observes (the flag is set concurrently
by `shutDown`). `queue` is the live `_unlockList` (empty right after the
swap); a failed unlock re-enqueues via the standard append. Returns the live
queue when the loop finishes and whether it exited early on shutdown — on
early exit, the unprocessed remainder of the batch is discarded with the
local deque. -/
def processUnlockBatch (unlockOK : DistLockHandle → Bool) (shutdownAt : Nat → Bool) :
    List DistLockHandle → Nat → List DistLockHandle → List DistLockHandle × Bool
  | [], _, queue => (queue, false)
  | id :: rest, k, queue =>
    let queue1 := if unlockOK id then queue else queue ++ [id]
    if shutdownAt k then (queue1, true)
    else processUnlockBatch unlockOK shutdownAt rest (k + 1) queue1

/-- One iteration of the `doTask` maintenance cycle restricted to the unlock
queue (source lines 95-113): swap the whole queue into a local batch, then
drain the batch. Returns the state with the new live queue, and whether the
cycle returned early because shutdown was observed. -/
def runCycle (unlockOK : DistLockHandle → Bool) (shutdownAt : Nat → Bool)
    (s : ManagerState) : ManagerState × Bool :=
  let res := processUnlockBatch unlockOK shutdownAt s.unlockList 0 []
  ({ s with unlockList := res.1 }, res.2)

/-- Result of `ReplSetDistLockManager::shutDown` (source lines 65-84):
the state afterwards, whether the background thread was joined, and whether
the stop-ping failure warning was logged. The C++ function returns `void`:
the stop-ping status is never propagated. -/
structure ShutDownResult where
  state : ManagerState
  joinedThread : Bool
  warnedStopPing : Bool
deriving DecidableEq, Repr

/-- `ReplSetDistLockManager::shutDown` (source lines 65-84): set the shutdown
flag; join the background thread only if the handle is set (and reset the
handle); then call `stopPing` (result modelled by `stopPingOK`), logging a
warning on failure. -/
def shutDown (stopPingOK : Bool) (s : ManagerState) : ShutDownResult :=
  let s1 : ManagerState := { s with isShutDown := true }
  if s1.hasExecThread then
    { state := { s1 with hasExecThread := false },
      joinedThread := true, warnedStopPing := !stopPingOK }
  else
    { state := s1, joinedThread := false, warnedStopPing := !stopPingOK }

/-- `ReplSetDistLockManager::isShutDown` (source lines 86-89): read the
shutdown flag under the mutex. -/
def isShutDown (s : ManagerState) : Bool := s.isShutDown

/-- The manager operations that touch the shared state, for stating the
shutdown-flag invariant. Oracle arguments model the catalog results observed
by the operation. -/
inductive MgrOp
  | opStartUp
  | opLock (grab : Nat → Status) (waitFor lockTryInterval : Int) (startId fuel : Nat)
  | opUnlock (unlockOK : Bool) (id : DistLockHandle)
  | opCheckStatus (lookup : Except ErrorCode LocksType)
  | opQueueUnlock (id : DistLockHandle)
  | opRunCycle (unlockOK : DistLockHandle → Bool) (shutdownAt : Nat → Bool)
  | opShutDown (stopPingOK : Bool)
  | opIsShutDown

/-- Effect of each manager operation on the manager state. A `lock` call
appends the ids it queued for unlock; `checkStatus` and `isShutDown` are
pure reads. -/
def applyOp : MgrOp → ManagerState → ManagerState
  | MgrOp.opStartUp, s => { s with hasExecThread := true }
  | MgrOp.opLock grab w i sId fuel, s =>
    match lock grab w i sId fuel with
    | some o => { s with unlockList := s.unlockList ++ o.queued }
    | none => s
  | MgrOp.opUnlock ok id, s => unlock ok s id
  | MgrOp.opCheckStatus _, s => s
  | MgrOp.opQueueUnlock id, s => queueUnlock s id
  | MgrOp.opRunCycle u sd, s => (runCycle u sd s).1
  | MgrOp.opShutDown ok, s => (shutDown ok s).state
  | MgrOp.opIsShutDown, s => s

/-- A sequence of manager operations applied in order. -/
def applyOps (ops : List MgrOp) (s : ManagerState) : ManagerState :=
  ops.foldl (fun t o => applyOp o t) s

/-- C1: if a `grabLock` attempt of `lock` fails with any status other than
`LockStateChangeFailed`, that iteration enqueues the attempt's session id
onto the pending-unlock queue, returns that failure status immediately, and
performs no further grab attempts: the outcome's queue gains exactly that id,
its attempt list ends with that attempt, and the elapsed timer does not
advance further. Stated for an arbitrary reachable loop state, so it covers
every call to `lock`. -/
theorem lock_ambiguous_failure_enqueues_and_returns
    (grab : Nat → Status) (waitFor lockTryInterval : Int) (startId : Nat)
    (fuel : Nat) (elapsed : Int) (queued ids : List DistLockHandle) (c : ErrorCode)
    (hcond : waitFor ≤ 0 ∨ elapsed < waitFor)
    (hgrab : grab ids.length = Status.err c)
    (hc : c ≠ ErrorCode.lockStateChangeFailed) :
    lockLoop grab waitFor lockTryInterval startId (fuel + 1) elapsed queued ids =
      some ⟨Except.error (Status.err c), queued ++ [startId + ids.length],
            ids ++ [startId + ids.length], elapsed⟩ := by
  rw [lockLoop, if_pos hcond, hgrab]
  simp [hc]

/-- Witness for C1: a concrete ambiguous failure on the first attempt of a
fresh call. -/
theorem lock_ambiguous_failure_enqueues_and_returns_witness :
    lockLoop (fun _ => Status.err (ErrorCode.other 3)) (-1) 5 10 1 0 [] [] =
      some ⟨Except.error (Status.err (ErrorCode.other 3)), [10], [10], 0⟩ :=
  lock_ambiguous_failure_enqueues_and_returns
    (fun _ => Status.err (ErrorCode.other 3)) (-1) 5 10 0 0 [] []
    (ErrorCode.other 3) (Or.inl (by decide)) rfl (by decide)

/-- C3: a `lock` call with `waitFor = 0` performs exactly one `grabLock`
attempt (one session id is generated) and returns with the timer still at
zero (it never sleeps): the minted handle on success, `LockBusy` on a clean
rejection (and the failure itself on an ambiguous failure). -/
theorem lock_zero_waitFor_single_attempt
    (grab : Nat → Status) (lockTryInterval : Int) (startId fuel : Nat) :
    ∃ o, lock grab 0 lockTryInterval startId (fuel + 1) = some o ∧
      o.ids = [startId] ∧ o.elapsed = 0 ∧
      (grab 0 = Status.ok → o.result = Except.ok startId) ∧
      (grab 0 = Status.err ErrorCode.lockStateChangeFailed →
        o.result = Except.error (Status.err ErrorCode.lockBusy)) ∧
      (∀ c, grab 0 = Status.err c → c ≠ ErrorCode.lockStateChangeFailed →
        o.result = Except.error (Status.err c)) := by
  cases hg : grab 0 with
  | ok =>
    refine ⟨⟨Except.ok startId, [], [startId], 0⟩, ?_, rfl, rfl,
      fun _ => rfl, ?_, ?_⟩
    · simp [lock, lockLoop, hg]
    · intro h; simp at h
    · intro c h; simp at h
  | err c =>
    by_cases hc : c = ErrorCode.lockStateChangeFailed
    · subst hc
      refine ⟨⟨Except.error (Status.err ErrorCode.lockBusy), [], [startId], 0⟩,
        ?_, rfl, rfl, ?_, fun _ => rfl, ?_⟩
      · simp [lock, lockLoop, hg]
      · intro h; simp at h
      · intro d h hd
        injection h with h2
        exact absurd h2.symm hd
    · refine ⟨⟨Except.error (Status.err c), [startId], [startId], 0⟩,
        ?_, rfl, rfl, ?_, ?_, ?_⟩
      · simp [lock, lockLoop, hg, hc]
      · intro h; simp at h
      · intro h
        injection h with h2
        exact absurd h2 hc
      · intro d h hd
        injection h with h2
        subst h2
        rfl

/-- Witness for C3: with a grab oracle that succeeds on the first attempt,
`lock` with `waitFor = 0` returns the minted handle. -/
theorem lock_zero_waitFor_single_attempt_witness :
    ∃ o, lock (fun _ => Status.ok) 0 7 5 3 = some o ∧
      o.ids = [5] ∧ o.elapsed = 0 ∧ o.result = Except.ok 5 := by
  obtain ⟨o, h1, h2, h3, h4, -, -⟩ :=
    lock_zero_waitFor_single_attempt (fun _ => Status.ok) 7 5 2
  exact ⟨o, h1, h2, h3, h4 rfl⟩

/-- C5: `unlock` attempts the catalog unlock (oracle `unlockOK`); on failure
the handle is appended exactly once to the pending-unlock queue (its count
in the queue rises by exactly one, everything else unchanged), on success
the state is unchanged. The C++ `unlock` returns `void`, so no failure is
ever reported to the caller: the state is its entire effect. -/
theorem unlock_enqueues_once_on_failure (ok : Bool) (s : ManagerState)
    (id : DistLockHandle) :
    (unlock ok s id).unlockList.count id
      = s.unlockList.count id + (if ok then 0 else 1)
    ∧ (unlock false s id).unlockList = s.unlockList ++ [id]
    ∧ unlock true s id = s := by
  refine ⟨?_, rfl, rfl⟩
  cases ok <;> simp [unlock, queueUnlock]

/-- C6: `checkStatus` propagates a catalog lookup failure unchanged, returns
`LockNotFound` when the lock document is found but no longer valid, and
succeeds otherwise. -/
theorem checkStatus_cases (lookup : Except ErrorCode LocksType) :
    (∀ c, lookup = Except.error c → checkStatus lookup = Status.err c) ∧
    (∀ d, lookup = Except.ok d → d.isValid = false →
      checkStatus lookup = Status.err ErrorCode.lockNotFound) ∧
    (∀ d, lookup = Except.ok d → d.isValid = true →
      checkStatus lookup = Status.ok) := by
  refine ⟨?_, ?_, ?_⟩
  · rintro c rfl; rfl
  · rintro d rfl hv; simp [checkStatus, hv]
  · rintro d rfl hv; simp [checkStatus, hv]

/-- Witness for C6: a concrete lookup failure is propagated unchanged. -/
theorem checkStatus_cases_witness :
    checkStatus (Except.error (ErrorCode.other 3)) = Status.err (ErrorCode.other 3) :=
  (checkStatus_cases (Except.error (ErrorCode.other 3))).1 (ErrorCode.other 3) rfl

/-- C7: `shutDown` sets the shutdown flag; it joins the background thread
only when the thread handle is set (so it is safe when `startUp` was never
called); a second `shutDown` never joins and leaves the state unchanged
(no-op with respect to the background task); the resulting state does not
depend on the stop-ping outcome (a stop-ping failure is only logged as a
warning, never propagated — `shutDown` returns `void`). -/
theorem shutDown_safe_idempotent (s : ManagerState) (ok1 ok2 : Bool) :
    ((shutDown ok1 s).state).isShutDown = true ∧
    (s.hasExecThread = false → (shutDown ok1 s).joinedThread = false) ∧
    (shutDown ok2 (shutDown ok1 s).state).joinedThread = false ∧
    (shutDown ok2 (shutDown ok1 s).state).state = (shutDown ok1 s).state ∧
    (shutDown ok1 s).state = (shutDown ok2 s).state ∧
    (shutDown false s).warnedStopPing = true := by
  obtain ⟨f, t, q⟩ := s
  cases t <;> simp [shutDown]

/-- Witness for C7: shutting down a manager whose `startUp` was never called
joins nothing, and a failed stop-ping is only logged. -/
theorem shutDown_safe_idempotent_witness :
    (shutDown true initialState).joinedThread = false ∧
    (shutDown false initialState).warnedStopPing = true :=
  ⟨(shutDown_safe_idempotent initialState true true).2.1 rfl,
   (shutDown_safe_idempotent initialState true true).2.2.2.2.2⟩

/-- Draining a batch when every catalog unlock fails and no shutdown is
observed: every id is re-enqueued in order onto the live queue, and the loop
runs to completion. -/
theorem processUnlockBatch_allFail_noShutdown (u : DistLockHandle → Bool)
    (sd : Nat → Bool) (hu : ∀ id, u id = false) (hsd : ∀ j, sd j = false) :
    ∀ batch (k : Nat) (queue : List DistLockHandle),
      processUnlockBatch u sd batch k queue = (queue ++ batch, false) := by
  intro batch
  induction batch with
  | nil => intro k q; simp [processUnlockBatch]
  | cons id rest ih =>
    intro k q
    simp [processUnlockBatch, hu, hsd, ih]

/-- C2 counterexample: a maintenance cycle in which every catalog unlock
fails but the shutdown flag is observed set after the first attempt. The
queue held ids 7 and 9; the cycle re-enqueues 7 but exits early and id 9 is
dropped from the queue (its count falls from one to zero), so the claim
that no session id is ever lost in an all-unlocks-fail cycle is false. -/
theorem cycle_shutdown_drops_remainder :
    runCycle (fun _ => false) (fun j => j == 0) ⟨false, false, [7, 9]⟩
      = (⟨false, false, [7]⟩, true)
    ∧ ([7] : List DistLockHandle).count 9 < ([7, 9] : List DistLockHandle).count 9 := by
  exact ⟨rfl, by decide⟩

/-- C2 (amended): in a maintenance cycle in which every catalog unlock fails
and the shutdown flag is never observed set during the batch, every drained
id is re-enqueued via the standard append, so the live queue after the cycle
is exactly the drained batch: nothing is lost and the queue is
non-decreasing across such cycles. -/
theorem cycle_allFail_noShutdown_preserves_queue
    (u : DistLockHandle → Bool) (sd : Nat → Bool) (s : ManagerState)
    (hu : ∀ id, u id = false) (hsd : ∀ j, sd j = false) :
    (runCycle u sd s).1.unlockList = s.unlockList ∧ (runCycle u sd s).2 = false := by
  simp [runCycle, processUnlockBatch_allFail_noShutdown u sd hu hsd]

/-- Witness for the amended C2: a concrete all-fail, no-shutdown cycle keeps
the queue intact. -/
theorem cycle_allFail_noShutdown_preserves_queue_witness :
    (runCycle (fun _ => false) (fun _ => false) ⟨false, false, [3, 4]⟩).1.unlockList
      = [3, 4] :=
  (cycle_allFail_noShutdown_preserves_queue (fun _ => false) (fun _ => false)
    ⟨false, false, [3, 4]⟩ (fun _ => rfl) (fun _ => rfl)).1

/-- No single manager operation clears the shutdown flag. -/
theorem applyOp_flag_mono (op : MgrOp) (s : ManagerState)
    (h : isShutDown s = true) : isShutDown (applyOp op s) = true := by
  cases op with
  | opLock grab w i sId fuel =>
    simp only [applyOp]
    cases lock grab w i sId fuel <;> simpa [isShutDown] using h
  | opUnlock ok id => cases ok <;> simpa [applyOp, unlock, queueUnlock, isShutDown] using h
  | opShutDown ok =>
    simp only [applyOp, shutDown, isShutDown]
    by_cases ht : s.hasExecThread <;> simp [ht]
  | opRunCycle u sd => simpa [applyOp, runCycle, isShutDown] using h
  | _ => simpa [applyOp, queueUnlock, isShutDown] using h

/-- Only `shutDown` can turn the shutdown flag on. -/
theorem applyOp_flag_set (op : MgrOp) (s : ManagerState)
    (h : isShutDown (applyOp op s) = true) :
    isShutDown s = true ∨ ∃ ok, op = MgrOp.opShutDown ok := by
  cases op with
  | opLock grab w i sId fuel =>
    left
    simp only [applyOp] at h
    rcases hl : lock grab w i sId fuel with _ | o <;> rw [hl] at h <;>
      simpa [isShutDown] using h
  | opUnlock ok id =>
    left
    cases ok <;> simpa [applyOp, unlock, queueUnlock, isShutDown] using h
  | opShutDown ok => exact Or.inr ⟨ok, rfl⟩
  | opRunCycle u sd => left; simpa [applyOp, runCycle, isShutDown] using h
  | _ => left; simpa [applyOp, queueUnlock, isShutDown] using h

/-- Once the shutdown flag is on, it stays on across any operation
sequence. -/
theorem applyOps_flag_mono (ops : List MgrOp) :
    ∀ s : ManagerState, isShutDown s = true → isShutDown (applyOps ops s) = true := by
  induction ops with
  | nil => intro s h; exact h
  | cons op rest ih =>
    intro s h
    exact ih (applyOp op s) (applyOp_flag_mono op s h)

/-- C8: the shutdown flag starts false, is set only by `shutDown`, is never
cleared by any operation, and once `isShutDown` reads true it reads true
after every subsequent operation sequence. -/
theorem shutdown_flag_monotone :
    initialState.isShutDown = false ∧
    (∀ op s, isShutDown s = true → isShutDown (applyOp op s) = true) ∧
    (∀ op s, isShutDown (applyOp op s) = true →
      isShutDown s = true ∨ ∃ ok, op = MgrOp.opShutDown ok) ∧
    (∀ ops s, isShutDown s = true → isShutDown (applyOps ops s) = true) :=
  ⟨rfl, applyOp_flag_mono, applyOp_flag_set,
   fun ops s h => applyOps_flag_mono ops s h⟩

/-- Witness for C8: once the flag is true it survives a concrete operation
sequence. -/
theorem shutdown_flag_monotone_witness :
    isShutDown (applyOps [MgrOp.opQueueUnlock 1, MgrOp.opIsShutDown]
      ⟨true, false, []⟩) = true :=
  shutdown_flag_monotone.2.2.2 [MgrOp.opQueueUnlock 1, MgrOp.opIsShutDown]
    ⟨true, false, []⟩ rfl

/-- With a strictly negative `waitFor` and clean rejections throughout, the
acquisition loop never returns: the loop condition `waitFor ≤ 0` is always
satisfied and the `waitFor == 0` break is never taken. -/
theorem lockLoop_neg_waitFor_diverges (grab : Nat → Status)
    (waitFor lockTryInterval : Int) (startId : Nat)
    (hw : waitFor < 0)
    (hgrab : ∀ k, grab k = Status.err ErrorCode.lockStateChangeFailed) :
    ∀ (fuel : Nat) (elapsed : Int) (queued ids : List DistLockHandle),
      0 ≤ elapsed →
      lockLoop grab waitFor lockTryInterval startId fuel elapsed queued ids = none := by
  intro fuel
  induction fuel with
  | zero => intro elapsed queued ids _; rfl
  | succ n ih =>
    intro elapsed queued ids he
    have hw0 : waitFor ≠ 0 := ne_of_lt hw
    rw [lockLoop, if_pos (Or.inl (le_of_lt hw)), hgrab]
    simp only [ne_eq, not_true_eq_false, if_false, hw0, if_neg hw0]
    exact ih _ queued _ (by simp only [sleepAmount]; omega)

/-- C10: for a `lock` call with strictly negative `waitFor` (and a
nonnegative retry interval, as durations are), under repeated clean
rejections the loop retries without bound — it never returns, for any amount
of fuel — and the computed sleep duration is zero at every reachable timer
value, so the retries are performed with no inter-attempt delay rather than
paced at `lockTryInterval`. -/
theorem lock_neg_waitFor_unbounded_no_delay (grab : Nat → Status)
    (waitFor lockTryInterval : Int) (startId : Nat)
    (hw : waitFor < 0) (hi : 0 ≤ lockTryInterval)
    (hgrab : ∀ k, grab k = Status.err ErrorCode.lockStateChangeFailed) :
    (∀ fuel, lock grab waitFor lockTryInterval startId fuel = none) ∧
    (∀ elapsed : Int, 0 ≤ elapsed →
      sleepAmount waitFor lockTryInterval elapsed = 0) := by
  constructor
  · intro fuel
    exact lockLoop_neg_waitFor_diverges grab waitFor lockTryInterval startId
      hw hgrab fuel 0 [] [] le_rfl
  · intro elapsed he
    simp only [sleepAmount]
    omega

/-- Witness for C10: a concrete unbounded-retry call returns nothing at fuel
40 and sleeps zero. -/
theorem lock_neg_waitFor_unbounded_no_delay_witness :
    lock (fun _ => Status.err ErrorCode.lockStateChangeFailed) (-1) 5 0 40 = none ∧
    sleepAmount (-1) 5 0 = 0 :=
  ⟨(lock_neg_waitFor_unbounded_no_delay (fun _ => Status.err ErrorCode.lockStateChangeFailed)
      (-1) 5 0 (by decide) (by decide) (fun _ => rfl)).1 40,
   (lock_neg_waitFor_unbounded_no_delay (fun _ => Status.err ErrorCode.lockStateChangeFailed)
      (-1) 5 0 (by decide) (by decide) (fun _ => rfl)).2 0 le_rfl⟩

/-- With `0 < waitFor`, `0 < lockTryInterval` and clean rejections
throughout, the acquisition loop terminates with the timer at exactly
`waitFor` and returns `LockBusy`, enqueuing nothing, provided the fuel
exceeds the remaining time budget (each iteration sleeps at least one unit,
so the budget bounds the number of remaining iterations). -/
theorem lockLoop_allReject_timesOut (grab : Nat → Status)
    (waitFor lockTryInterval : Int) (startId : Nat)
    (hw : 0 < waitFor) (hi : 0 < lockTryInterval)
    (hgrab : ∀ k, grab k = Status.err ErrorCode.lockStateChangeFailed) :
    ∀ (fuel : Nat) (elapsed : Int) (queued ids : List DistLockHandle),
      elapsed ≤ waitFor → (waitFor - elapsed).toNat < fuel →
      ∃ ids2, lockLoop grab waitFor lockTryInterval startId fuel elapsed queued ids =
        some ⟨Except.error (Status.err ErrorCode.lockBusy), queued, ids2, waitFor⟩ := by
  intro fuel
  induction fuel with
  | zero => intro elapsed queued ids _ hfuel; omega
  | succ n ih =>
    intro elapsed queued ids hle hfuel
    by_cases hcond : elapsed < waitFor
    · have hw0 : waitFor ≠ 0 := ne_of_gt hw
      rw [lockLoop, if_pos (Or.inr hcond), hgrab]
      simp only [ne_eq, not_true_eq_false, if_false, if_neg hw0]
      exact ih _ queued _ (by simp only [sleepAmount]; omega)
        (by simp only [sleepAmount]; omega)
    · have hew : elapsed = waitFor := le_antisymm hle (not_lt.1 hcond)
      subst hew
      refine ⟨ids, ?_⟩
      rw [lockLoop, if_neg (by push_neg; exact ⟨by omega, by omega⟩)]

/-- C4: a `lock` call with a strictly positive wait budget `waitFor` and a
positive retry interval, against a catalog whose `grabLock` always returns
the clean `LockStateChangeFailed` rejection, terminates (given fuel beyond
the time budget) and returns the `LockBusy` failure with the timer at
exactly `waitFor`: never earlier than `waitFor` and within one
`lockTryInterval` of it (in the idealized clock where only the sleeps
between attempts take time). Nothing is enqueued for unlock. -/
theorem lock_allReject_lockBusy_at_deadline (grab : Nat → Status)
    (waitFor lockTryInterval : Int) (startId fuel : Nat)
    (hw : 0 < waitFor) (hi : 0 < lockTryInterval)
    (hgrab : ∀ k, grab k = Status.err ErrorCode.lockStateChangeFailed)
    (hfuel : waitFor.toNat < fuel) :
    ∃ o, lock grab waitFor lockTryInterval startId fuel = some o ∧
      o.result = Except.error (Status.err ErrorCode.lockBusy) ∧
      o.queued = [] ∧
      waitFor ≤ o.elapsed ∧ o.elapsed < waitFor + lockTryInterval ∧
      o.elapsed = waitFor := by
  obtain ⟨ids2, h⟩ := lockLoop_allReject_timesOut grab waitFor lockTryInterval
    startId hw hi hgrab fuel 0 [] [] (le_of_lt hw) (by omega)
  refine ⟨_, h, rfl, rfl, le_refl waitFor, ?_, rfl⟩
  show waitFor < waitFor + lockTryInterval
  omega

/-- Witness for C4: `waitFor = 5`, `lockTryInterval = 2`, always
clean-rejecting catalog: `lock` returns `LockBusy` with the timer at 5. -/
theorem lock_allReject_lockBusy_at_deadline_witness :
    ∃ o, lock (fun _ => Status.err ErrorCode.lockStateChangeFailed) 5 2 0 6 = some o ∧
      o.result = Except.error (Status.err ErrorCode.lockBusy) ∧
      o.elapsed = 5 := by
  obtain ⟨o, h1, h2, -, -, -, h6⟩ :=
    lock_allReject_lockBusy_at_deadline (fun _ => Status.err ErrorCode.lockStateChangeFailed)
      5 2 0 6 (by decide) (by decide) (fun _ => rfl) (by decide)
  exact ⟨o, h1, h2, h6⟩

/-- Splitting the id range of consecutive attempts: the ids of attempts
`0..m` from base `startId + len` are the first id followed by the ids of
attempts from base `startId + len + 1`. -/
theorem rangeMap_shift (startId len m : Nat) :
    (List.range (m + 1)).map (fun k => startId + (len + k))
      = (startId + len) :: (List.range m).map (fun k => startId + (len + 1 + k)) := by
  rw [List.range_succ_eq_map, List.map_cons, List.map_map]
  congr 1
  exact List.map_congr_left fun x _ => by simp only [Function.comp_apply]; omega

/-- Invariant of the acquisition loop: starting from generated ids `ids`,
the final id list is `ids` extended by consecutively numbered fresh ids
(`startId + ids.length`, `startId + ids.length + 1`, ...), and on success
the returned handle is the id generated for the succeeding attempt (the last
one generated). -/
theorem lockLoop_ids_spec (grab : Nat → Status) (waitFor lockTryInterval : Int)
    (startId : Nat) :
    ∀ (fuel : Nat) (elapsed : Int) (queued ids : List DistLockHandle) (o : LockOutcome),
      lockLoop grab waitFor lockTryInterval startId fuel elapsed queued ids = some o →
      (∃ m, o.ids = ids ++ (List.range m).map (fun k => startId + (ids.length + k))) ∧
      (∀ hdl, o.result = Except.ok hdl → o.ids.getLast? = some hdl) := by
  intro fuel
  induction fuel with
  | zero => intro elapsed queued ids o h; simp [lockLoop] at h
  | succ n ih =>
    intro elapsed queued ids o h
    rw [lockLoop] at h
    by_cases hcond : waitFor ≤ 0 ∨ elapsed < waitFor
    · rw [if_pos hcond] at h
      cases hg : grab ids.length with
      | ok =>
        simp only [hg] at h
        injection h with h2
        subst h2
        constructor
        · exact ⟨1, rfl⟩
        · intro hdl hh
          injection hh with h3
          subst h3
          exact List.getLast?_concat ids
      | err c =>
        by_cases hc : c = ErrorCode.lockStateChangeFailed
        · subst hc
          simp only [hg, ne_eq, not_true_eq_false, if_false] at h
          by_cases hw0 : waitFor = 0
          · rw [if_pos hw0] at h
            injection h with h2
            subst h2
            constructor
            · exact ⟨1, rfl⟩
            · intro hdl hh; simp at hh
          · rw [if_neg hw0] at h
            obtain ⟨⟨m, hm⟩, hlast⟩ := ih _ _ _ _ h
            refine ⟨⟨m + 1, ?_⟩, hlast⟩
            simp only [List.length_append, List.length_singleton] at hm
            rw [hm, List.append_assoc]
            congr 1
            rw [rangeMap_shift]
            rfl
        · simp only [hg, ne_eq, hc, not_false_eq_true, if_true] at h
          injection h with h2
          subst h2
          constructor
          · exact ⟨1, rfl⟩
          · intro hdl hh; simp at hh
    · rw [if_neg hcond] at h
      injection h with h2
      subst h2
      constructor
      · exact ⟨0, by simp⟩
      · intro hdl hh; simp at hh

/-- C9: every iteration of the acquisition loop generates a fresh session
id before calling `grabLock` — the ids generated by a `lock` call starting
at counter `startId` are exactly `startId, startId+1, ...`, one per attempt,
with no duplicates — and on success the handle returned to the caller is
exactly the id generated for the succeeding (last) attempt. Moreover the ids
of a subsequent call whose counter continues where this call stopped are
disjoint from this call's ids: no id is reused across calls. -/
theorem lock_fresh_session_ids (grab : Nat → Status)
    (waitFor lockTryInterval : Int) (startId fuel : Nat) (o : LockOutcome)
    (h : lock grab waitFor lockTryInterval startId fuel = some o) :
    o.ids = (List.range o.ids.length).map (fun k => startId + k) ∧
    o.ids.Nodup ∧
    (∀ hdl, o.result = Except.ok hdl → o.ids.getLast? = some hdl) ∧
    (∀ (grab2 : Nat → Status) (w2 i2 : Int) (fuel2 : Nat) (o2 : LockOutcome),
      lock grab2 w2 i2 (startId + o.ids.length) fuel2 = some o2 →
      ∀ x, x ∈ o.ids → x ∉ o2.ids) := by
  obtain ⟨⟨m, hm⟩, hlast⟩ := lockLoop_ids_spec grab waitFor lockTryInterval
    startId fuel 0 [] [] o h
  have hm' : o.ids = (List.range m).map (fun k => startId + k) := by
    simpa using hm
  have hlen : o.ids.length = m := by rw [hm']; simp
  refine ⟨by rw [hlen, hm'], ?_, hlast, ?_⟩
  · rw [hm']
    exact List.Nodup.map (fun a b hab => by simpa using hab) (List.nodup_range m)
  · intro grab2 w2 i2 fuel2 o2 h2 x hx hx2
    obtain ⟨⟨m2, hm2⟩, -⟩ := lockLoop_ids_spec grab2 w2 i2
      (startId + o.ids.length) fuel2 0 [] [] o2 h2
    have hm2' : o2.ids = (List.range m2).map (fun k => startId + o.ids.length + k) := by
      simpa using hm2
    rw [hm'] at hx
    obtain ⟨k, hk, hkx⟩ := List.mem_map.1 hx
    rw [hm2'] at hx2
    obtain ⟨k2, hk2, hk2x⟩ := List.mem_map.1 hx2
    rw [List.mem_range] at hk hk2
    rw [hlen] at hk2x
    have e1 : startId + k = x := hkx
    have e2 : startId + m + k2 = x := hk2x
    omega

/-- Witness for C9: a call that succeeds on its first attempt has the single
fresh id `startId` and returns it as the handle. -/
theorem lock_fresh_session_ids_witness :
    (⟨Except.ok 5, [], [5], 0⟩ : LockOutcome).ids.Nodup :=
  (lock_fresh_session_ids (fun _ => Status.ok) 0 7 5 1
    ⟨Except.ok 5, [], [5], 0⟩ rfl).2.1

end ReplSetDistLock
